import Mathlib

/-!
# Verification of the `mcp_rs` message dispatcher (`src/lib.rs`)

A shallow embedding of the repository's single source file: the JSON value
model used by `serde_json::Value`, the derived (de)serializers of the
protocol structs (`Request`, `Notification`, `Response`, `ErrorResponse`,
`RequestId`, the capability structs), and the `Server` dispatch functions
`handle_message` / `handle_request` / `handle_notification`.

The JSON text codec is an external library collaborator (`serde_json`); it
is modelled here by an executable parser/renderer over the integer fragment
of JSON (numbers are integers; floats, which no claim touches, are not
modelled).  Objects are kept as field lists in source order, with duplicate
keys preserved by the generic parse — matching `serde`'s derived
deserializers, which see the raw token stream and reject duplicate known
fields while skipping unknown ones.
-/

namespace McpRs

/-- The generic structured document (`serde_json::Value`), integer-number
fragment.  Object fields are kept in source order; duplicates are possible
in a parsed raw document. -/
inductive Json where
  | null : Json
  | bool (b : Bool) : Json
  | num (n : Int) : Json
  | str (s : String) : Json
  | arr (elems : List Json) : Json
  | obj (fields : List (String × Json)) : Json
deriving Repr

/-- `serde_json::Value::get(key)` on a document: a key lookup on an object,
`None` on every other shape.  `serde_json`'s map keeps the last occurrence
of a duplicated key. -/
def Json.get : Json → String → Option Json
  | .obj fields, key => (fields.reverse.lookup key)
  | _, _ => none

/-- One character of `serde_json`'s compact string escaping: `\"`, `\\`,
the short control escapes, `\u00XX` (lowercase hex) for other controls. -/
def escapeChar (c : Char) : String :=
  if c = '"' then "\\\""
  else if c = '\\' then "\\\\"
  else if c = (Char.ofNat 8) then "\\b"
  else if c = '\t' then "\\t"
  else if c = '\n' then "\\n"
  else if c = (Char.ofNat 12) then "\\f"
  else if c = '\r' then "\\r"
  else if c.toNat < 32 then
    let hex := fun (n : Nat) =>
      String.singleton (if n < 10 then Char.ofNat (48 + n) else Char.ofNat (87 + n))
    "\\u00" ++ hex (c.toNat / 16) ++ hex (c.toNat % 16)
  else String.singleton c

/-- A JSON string literal as `serde_json` writes it. -/
def renderString (s : String) : String :=
  "\"" ++ String.join (s.data.map escapeChar) ++ "\""

mutual

/-- Compact serialization, as `serde_json::to_string` writes a document:
no whitespace, fields in the order of the field list. -/
def Json.render : Json → String
  | .null => "null"
  | .bool true => "true"
  | .bool false => "false"
  | .num n => toString n
  | .str s => renderString s
  | .arr elems => "[" ++ Json.renderElems elems ++ "]"
  | .obj fields => "\x7b" ++ Json.renderFields fields ++ "\x7d"

def Json.renderElems : List Json → String
  | [] => ""
  | [x] => Json.render x
  | x :: xs => Json.render x ++ "," ++ Json.renderElems xs

def Json.renderFields : List (String × Json) → String
  | [] => ""
  | [(k, v)] => renderString k ++ ":" ++ Json.render v
  | (k, v) :: xs => renderString k ++ ":" ++ Json.render v ++ "," ++ Json.renderFields xs

end

/-! ## The text codec (`serde_json::from_str` for `Value`)

An executable parser for the integer fragment of JSON.  Recursion is by
fuel; `Json.parse` supplies more fuel than any input can use, so the fuel
bound is never the reason an input is rejected. -/

/-- JSON insignificant whitespace, the set `serde_json` skips. -/
def isWs (c : Char) : Bool :=
  c = ' ' || c = '\t' || c = '\n' || c = '\r'

def skipWs : List Char → List Char
  | [] => []
  | c :: cs => if isWs c then skipWs cs else c :: cs

/-- Consume an expected literal suffix (e.g. `ull` after `n`). -/
def expectLit : List Char → List Char → Option (List Char)
  | [], cs => some cs
  | _ :: _, [] => none
  | l :: ls, c :: cs => if l = c then expectLit ls cs else none

def hexVal? (c : Char) : Option Nat :=
  if '0' ≤ c ∧ c ≤ '9' then some (c.toNat - 48)
  else if 'a' ≤ c ∧ c ≤ 'f' then some (c.toNat - 87)
  else if 'A' ≤ c ∧ c ≤ 'F' then some (c.toNat - 55)
  else none

/-- Body of a JSON string literal, after the opening quote. -/
def parseStringBody : List Char → String → Except String (String × List Char)
  | [], _ => .error "unexpected end of input in string"
  | '"' :: cs, acc => .ok (acc, cs)
  | '\\' :: esc, acc =>
    match esc with
    | [] => .error "unexpected end of input in escape"
    | e :: cs =>
      if e = '"' then parseStringBody cs (acc.push '"')
      else if e = '\\' then parseStringBody cs (acc.push '\\')
      else if e = '/' then parseStringBody cs (acc.push '/')
      else if e = 'b' then parseStringBody cs (acc.push (Char.ofNat 8))
      else if e = 'f' then parseStringBody cs (acc.push (Char.ofNat 12))
      else if e = 'n' then parseStringBody cs (acc.push '\n')
      else if e = 'r' then parseStringBody cs (acc.push '\r')
      else if e = 't' then parseStringBody cs (acc.push '\t')
      else if e = 'u' then
        match cs with
        | a :: b :: c :: d :: rest =>
          match hexVal? a, hexVal? b, hexVal? c, hexVal? d with
          | some ha, some hb, some hc, some hd =>
            parseStringBody rest (acc.push (Char.ofNat (((ha * 16 + hb) * 16 + hc) * 16 + hd)))
          | _, _, _, _ => .error "invalid hex escape"
        | _ => .error "unexpected end of input in unicode escape"
      else .error "invalid escape character"
  | c :: cs, acc =>
    if c.toNat < 32 then .error "control character in string"
    else parseStringBody cs (acc.push c)

/-- Leading decimal digits, as a value and the remaining input. -/
def parseDigits : List Char → Nat → Nat × List Char
  | c :: cs, acc =>
    if '0' ≤ c ∧ c ≤ '9' then parseDigits cs (acc * 10 + (c.toNat - 48))
    else (acc, c :: cs)
  | [], acc => (acc, [])

mutual

/-- One JSON value (integer fragment), fuelled. -/
def parseValue : Nat → List Char → Except String (Json × List Char)
  | 0, _ => .error "input too deeply nested"
  | Nat.succ fuel, cs =>
    match skipWs cs with
    | [] => .error "unexpected end of input"
    | c :: rest =>
      if c = 'n' then
        match expectLit ['u', 'l', 'l'] rest with
        | some rest => .ok (.null, rest)
        | none => .error "invalid literal"
      else if c = 't' then
        match expectLit ['r', 'u', 'e'] rest with
        | some rest => .ok (.bool true, rest)
        | none => .error "invalid literal"
      else if c = 'f' then
        match expectLit ['a', 'l', 's', 'e'] rest with
        | some rest => .ok (.bool false, rest)
        | none => .error "invalid literal"
      else if c = '"' then
        match parseStringBody rest "" with
        | .ok (s, rest) => .ok (.str s, rest)
        | .error e => .error e
      else if c = '[' then
        match skipWs rest with
        | ']' :: rest => .ok (.arr [], rest)
        | rest => match parseElems fuel rest with
          | .ok (elems, rest) => .ok (.arr elems, rest)
          | .error e => .error e
      else if c = '{' then
        match skipWs rest with
        | '}' :: rest => .ok (.obj [], rest)
        | rest => match parseMembers fuel rest with
          | .ok (fields, rest) => .ok (.obj fields, rest)
          | .error e => .error e
      else if c = '-' then
        match rest with
        | d :: _ =>
          if '0' ≤ d ∧ d ≤ '9' then
            match parseNat rest with
            | .ok (n, rest) => .ok (.num (-(n : Int)), rest)
            | .error e => .error e
          else .error "invalid number"
        | [] => .error "unexpected end of input"
      else if '0' ≤ c ∧ c ≤ '9' then
        match parseNat (c :: rest) with
        | .ok (n, rest) => .ok (.num (n : Int), rest)
        | .error e => .error e
      else .error "unexpected character"

/-- An unsigned integer literal; a leading `0` admits no further digits,
and a fraction or exponent is outside the modelled fragment. -/
def parseNat : List Char → Except String (Nat × List Char)
  | '0' :: c :: cs =>
    if '0' ≤ c ∧ c ≤ '9' then .error "leading zero in number"
    else if c = '.' ∨ c = 'e' ∨ c = 'E' then .error "number outside integer fragment"
    else .ok (0, c :: cs)
  | ['0'] => .ok (0, [])
  | cs =>
    match parseDigits cs 0 with
    | (n, rest) =>
      match rest with
      | c :: _ =>
        if c = '.' ∨ c = 'e' ∨ c = 'E' then .error "number outside integer fragment"
        else .ok (n, rest)
      | [] => .ok (n, [])

/-- Comma-separated array elements, after `[` (non-empty case). -/
def parseElems : Nat → List Char → Except String (List Json × List Char)
  | 0, _ => .error "input too deeply nested"
  | Nat.succ fuel, cs =>
    match parseValue fuel cs with
    | .error e => .error e
    | .ok (v, rest) =>
      match skipWs rest with
      | ',' :: rest =>
        match parseElems fuel rest with
        | .ok (vs, rest) => .ok (v :: vs, rest)
        | .error e => .error e
      | ']' :: rest => .ok ([v], rest)
      | _ => .error "expected comma or end of array"

/-- Comma-separated object members, after `{` (non-empty case). -/
def parseMembers : Nat → List Char → Except String (List (String × Json) × List Char)
  | 0, _ => .error "input too deeply nested"
  | Nat.succ fuel, cs =>
    match skipWs cs with
    | '"' :: rest =>
      match parseStringBody rest "" with
      | .error e => .error e
      | .ok (k, rest) =>
        match skipWs rest with
        | ':' :: rest =>
          match parseValue fuel rest with
          | .error e => .error e
          | .ok (v, rest) =>
            match skipWs rest with
            | ',' :: rest =>
              match parseMembers fuel rest with
              | .ok (fields, rest) => .ok ((k, v) :: fields, rest)
              | .error e => .error e
            | '}' :: rest => .ok ([(k, v)], rest)
            | _ => .error "expected comma or end of object"
        | _ => .error "expected colon"
    | _ => .error "expected object key"

end

/-- `serde_json::from_str::<Value>`: parse a complete document, rejecting
trailing non-whitespace. -/
def Json.parse (s : String) : Except String Json :=
  match parseValue (s.length + 8) s.data with
  | .error e => .error e
  | .ok (v, rest) =>
    match skipWs rest with
    | [] => .ok v
    | _ => .error "trailing characters"

/-! ## Protocol types (`src/lib.rs`, lines 6–89) -/

def JSONRPC_VERSION : String := "2.0"

def PROTOCOL_VERSION : String := "2024-11-05"

/-- `RequestId`: `#[serde(untagged)] enum { String(String), Number(i64) }`. -/
inductive RequestId where
  | string (s : String) : RequestId
  | number (n : Int) : RequestId
deriving DecidableEq, Repr

/-- `Request { jsonrpc, id, method, params }`. -/
structure Request where
  jsonrpc : String
  id : RequestId
  method : String
  params : Option Json
deriving Repr

/-- `Notification { jsonrpc, method, params }`. -/
structure Notification where
  jsonrpc : String
  method : String
  params : Option Json
deriving Repr

/-- `ErrorResponse { code, message, data }`. -/
structure ErrorResponse where
  code : Int
  message : String
  data : Option Json
deriving Repr

/-- `Response { jsonrpc, id, result, error }`. -/
structure Response where
  jsonrpc : String
  id : RequestId
  result : Option Json
  error : Option ErrorResponse
deriving Repr

/-- `PromptsCapability { list_changed: bool }` — no serde rename attribute,
so the serialized key is the Rust field name `list_changed`. -/
structure PromptsCapability where
  list_changed : Bool
deriving DecidableEq, Repr

/-- `ResourcesCapability { subscribe, list_changed }`. -/
structure ResourcesCapability where
  subscribe : Bool
  list_changed : Bool
deriving DecidableEq, Repr

/-- `ToolsCapability { list_changed: bool }`. -/
structure ToolsCapability where
  list_changed : Bool
deriving DecidableEq, Repr

/-- `ServerCapabilities`, each group optional and skipped when `None`. -/
structure ServerCapabilities where
  logging : Option Json
  prompts : Option PromptsCapability
  resources : Option ResourcesCapability
  tools : Option ToolsCapability
deriving Repr

/-- `Implementation { name, version }`. -/
structure Implementation where
  name : String
  version : String
deriving DecidableEq, Repr

/-- `Server { capabilities, implementation }`. -/
structure Server where
  capabilities : ServerCapabilities
  implementation : Implementation
deriving Repr

/-- `Server::new`: the fixed advertised capabilities and the injected
implementation identity. -/
def Server.new (name : String) (version : String) : Server :=
  { capabilities :=
      { logging := some (Json.obj [])
        prompts := some { list_changed := false }
        resources := some { subscribe := false, list_changed := false }
        tools := some { list_changed := false } }
    implementation := { name := name, version := version } }

/-! ## Derived deserializers (`serde::Deserialize`)

serde's derived deserializer reads the fields of an object in source
order: a known field seen twice is a duplicate-field error, a known field
of the wrong shape is a type error, an unknown field is skipped (no
`deny_unknown_fields`), and after the last field every missing required
field is an error while a missing `Option` field defaults to `None`. -/

/-- Untagged decode of `RequestId`: a JSON string or a JSON (integer)
number; anything else matches no variant. -/
def RequestId.fromJson : Json → Except String RequestId
  | .str s => .ok (.string s)
  | .num n => .ok (.number n)
  | _ => .error "data did not match any variant of untagged enum RequestId"

/-- Decode of a `String`-typed field. -/
def decodeString : Json → Except String String
  | .str s => .ok s
  | _ => .error "invalid type: expected a string"

/-- Decode of an `Option<Value>`-typed field: JSON `null` is `None`. -/
def decodeOptValue : Json → Option Json
  | .null => none
  | v => some v

/-- Partial field record built while reading a `Request` object. -/
structure RequestAcc where
  jsonrpc : Option String := none
  id : Option RequestId := none
  method : Option String := none
  params : Option (Option Json) := none

def Request.collectFields : RequestAcc → List (String × Json) → Except String RequestAcc
  | acc, [] => .ok acc
  | acc, (k, v) :: rest =>
    if k = "jsonrpc" then
      match acc.jsonrpc with
      | some _ => .error "duplicate field jsonrpc"
      | none =>
        match decodeString v with
        | .ok s => Request.collectFields { acc with jsonrpc := some s } rest
        | .error e => .error e
    else if k = "id" then
      match acc.id with
      | some _ => .error "duplicate field id"
      | none =>
        match RequestId.fromJson v with
        | .ok i => Request.collectFields { acc with id := some i } rest
        | .error e => .error e
    else if k = "method" then
      match acc.method with
      | some _ => .error "duplicate field method"
      | none =>
        match decodeString v with
        | .ok m => Request.collectFields { acc with method := some m } rest
        | .error e => .error e
    else if k = "params" then
      match acc.params with
      | some _ => .error "duplicate field params"
      | none => Request.collectFields { acc with params := some (decodeOptValue v) } rest
    else
      Request.collectFields acc rest

/-- `serde_json::from_str::<Request>` on an already parsed document. -/
def Request.fromJson : Json → Except String Request
  | .obj fields =>
    match Request.collectFields {} fields with
    | .error e => .error e
    | .ok acc =>
      match acc.jsonrpc, acc.id, acc.method with
      | some j, some i, some m =>
        .ok { jsonrpc := j, id := i, method := m, params := acc.params.getD none }
      | none, _, _ => .error "missing field jsonrpc"
      | some _, none, _ => .error "missing field id"
      | some _, some _, none => .error "missing field method"
  | _ => .error "invalid type: expected struct Request"

/-- Partial field record built while reading a `Notification` object. -/
structure NotificationAcc where
  jsonrpc : Option String := none
  method : Option String := none
  params : Option (Option Json) := none

def Notification.collectFields :
    NotificationAcc → List (String × Json) → Except String NotificationAcc
  | acc, [] => .ok acc
  | acc, (k, v) :: rest =>
    if k = "jsonrpc" then
      match acc.jsonrpc with
      | some _ => .error "duplicate field jsonrpc"
      | none =>
        match decodeString v with
        | .ok s => Notification.collectFields { acc with jsonrpc := some s } rest
        | .error e => .error e
    else if k = "method" then
      match acc.method with
      | some _ => .error "duplicate field method"
      | none =>
        match decodeString v with
        | .ok m => Notification.collectFields { acc with method := some m } rest
        | .error e => .error e
    else if k = "params" then
      match acc.params with
      | some _ => .error "duplicate field params"
      | none => Notification.collectFields { acc with params := some (decodeOptValue v) } rest
    else
      Notification.collectFields acc rest

/-- `serde_json::from_str::<Notification>` on an already parsed document;
an `id` field is unknown to this struct and is skipped. -/
def Notification.fromJson : Json → Except String Notification
  | .obj fields =>
    match Notification.collectFields {} fields with
    | .error e => .error e
    | .ok acc =>
      match acc.jsonrpc, acc.method with
      | some j, some m => .ok { jsonrpc := j, method := m, params := acc.params.getD none }
      | none, _ => .error "missing field jsonrpc"
      | some _, none => .error "missing field method"
  | _ => .error "invalid type: expected struct Notification"

/-! ## Derived serializers (`serde::Serialize`)

The `Response` struct is serialized by its derive, fields in declaration
order, every `Option` field with `skip_serializing_if = "Option::is_none"`
omitted entirely when `None`.  Values interpolated into `json!` go through
`serde_json::to_value`, whose `Map` is a `BTreeMap`: their keys come out
in sorted order. -/

def RequestId.toJson : RequestId → Json
  | .string s => .str s
  | .number n => .num n

def ErrorResponse.toJson (e : ErrorResponse) : Json :=
  .obj ([("code", .num e.code), ("message", .str e.message)] ++
    (match e.data with
     | none => []
     | some d => [("data", d)]))

def Response.toJson (r : Response) : Json :=
  .obj ([("jsonrpc", .str r.jsonrpc), ("id", r.id.toJson)] ++
    (match r.result with
     | none => []
     | some v => [("result", v)]) ++
    (match r.error with
     | none => []
     | some e => [("error", e.toJson)]))

def PromptsCapability.toJson (p : PromptsCapability) : Json :=
  .obj [("list_changed", .bool p.list_changed)]

/-- Keys in `BTreeMap` (sorted) order: `list_changed` before `subscribe`. -/
def ResourcesCapability.toJson (r : ResourcesCapability) : Json :=
  .obj [("list_changed", .bool r.list_changed), ("subscribe", .bool r.subscribe)]

def ToolsCapability.toJson (t : ToolsCapability) : Json :=
  .obj [("list_changed", .bool t.list_changed)]

def ServerCapabilities.toJson (c : ServerCapabilities) : Json :=
  .obj ((match c.logging with
     | none => []
     | some v => [("logging", v)]) ++
    (match c.prompts with
     | none => []
     | some p => [("prompts", p.toJson)]) ++
    (match c.resources with
     | none => []
     | some r => [("resources", r.toJson)]) ++
    (match c.tools with
     | none => []
     | some t => [("tools", t.toJson)]))

def Implementation.toJson (i : Implementation) : Json :=
  .obj [("name", .str i.name), ("version", .str i.version)]

/-- The `initialize` result document built by the `json!` macro; keys in
`BTreeMap` (sorted) order. -/
def initializeResult (srv : Server) : Json :=
  .obj [("capabilities", srv.capabilities.toJson),
        ("protocolVersion", .str PROTOCOL_VERSION),
        ("serverInfo", srv.implementation.toJson)]

/-! ## The dispatcher (`Server::handle_message` and friends) -/

/-- The `match request.method` of `Server::handle_request`: the `Response`
value each branch constructs. -/
def Server.buildResponse (srv : Server) (request : Request) : Response :=
  match request.method with
  | "initialize" =>
    { jsonrpc := JSONRPC_VERSION
      id := request.id
      result := some (initializeResult srv)
      error := none }
  | "ping" =>
    { jsonrpc := JSONRPC_VERSION
      id := request.id
      result := some (Json.obj [])
      error := none }
  | _ =>
    { jsonrpc := JSONRPC_VERSION
      id := request.id
      result := none
      error := some { code := -32601, message := "Method not found", data := none } }

/-- `Server::handle_request`: re-parse the text strictly as a `Request`
(`?` propagates the failure), dispatch on the method, serialize. -/
def Server.handleRequest (srv : Server) (message : String) :
    Except String (Option String) :=
  match Json.parse message with
  | .error e => .error e
  | .ok v =>
    match Request.fromJson v with
    | .error e => .error e
    | .ok request => .ok (some (Json.render (srv.buildResponse request).toJson))

/-- `Server::handle_notification`: strict parse, then a no-op match on the
method (`"notifications/initialized"` and the default arm both `Ok(())`). -/
def Server.handleNotification (srv : Server) (message : String) :
    Except String Unit :=
  match Json.parse message with
  | .error e => .error e
  | .ok v =>
    match Notification.fromJson v with
    | .error e => .error e
    | .ok notification =>
      match notification.method with
      | "notifications/initialized" => .ok ()
      | _ => .ok ()

/-- `Server::handle_message`: parse generically (`?` propagates failure),
then route on the presence of an `id` field in the raw document. -/
def Server.handleMessage (srv : Server) (message : String) :
    Except String (Option String) :=
  match Json.parse message with
  | .error e => .error e
  | .ok parsed =>
    if (parsed.get "id").isSome then
      srv.handleRequest message
    else
      match srv.handleNotification message with
      | .error e => .error e
      | .ok _ => .ok none

/-- The dispatch of `handle_message` on the parsed document.  Because
`handle_request` and `handle_notification` re-parse the same text,
`handle_message` factors through this function (`handleMessage_eq_handleDoc`
below). -/
def Server.handleDoc (srv : Server) (v : Json) : Except String (Option String) :=
  if (v.get "id").isSome then
    match Request.fromJson v with
    | .error e => .error e
    | .ok request => .ok (some (Json.render (srv.buildResponse request).toJson))
  else
    match Notification.fromJson v with
    | .error e => .error e
    | .ok _ => .ok none

/-- The server of the repository's tests, `Server::new("test-server", "1.0.0")`. -/
def exampleServer : Server := Server.new "test-server" "1.0.0"

/-- The `initialize` result document as the spec's §6 writes it, key for
key, for comparison with the `initializeResult` the code builds. -/
def specInitializeResult (name : String) (version : String) : Json :=
  .obj [("protocolVersion", .str "2024-11-05"),
        ("capabilities",
          .obj [("logging", .obj []),
                ("prompts", .obj [("listChanged", .bool false)]),
                ("resources", .obj [("subscribe", .bool false), ("listChanged", .bool false)]),
                ("tools", .obj [("listChanged", .bool false)])]),
        ("serverInfo", .obj [("name", .str name), ("version", .str version)])]

/-! ## Helper lemmas -/

theorem handleMessage_eq_handleDoc (srv : Server) (s : String) (v : Json)
    (h : Json.parse s = .ok v) : srv.handleMessage s = srv.handleDoc v := by
  simp only [Server.handleMessage, Server.handleDoc, Server.handleRequest,
    Server.handleNotification, h]
  split
  · rfl
  · cases hn : Notification.fromJson v with
    | error e => simp only [hn]
    | ok n =>
      simp only [hn]
      split <;> first
        | rfl
        | (rename_i e heq; split at heq <;> simp_all)

theorem decodeString_ok_iff (v : Json) (s : String) :
    decodeString v = .ok s ↔ v = .str s := by
  cases v <;> simp [decodeString]

theorem lookup_isSome_of_mem_keys (l : List (String × Json)) (k : String)
    (h : k ∈ l.map Prod.fst) : (l.lookup k).isSome := by
  induction l with
  | nil => simp at h
  | cons hd tl ih =>
    obtain ⟨k₀, v⟩ := hd
    simp only [List.map_cons, List.mem_cons] at h
    simp only [List.lookup]
    cases hbeq : k == k₀ with
    | true => simp
    | false =>
      rcases h with h | h
      · simp [h] at hbeq
      · exact ih h

theorem lookup_middle_ne (k key : String) (v : Json) (hk : k ≠ key) :
    ∀ l₁ l₂ : List (String × Json),
      (l₁ ++ (k, v) :: l₂).lookup key = (l₁ ++ l₂).lookup key := by
  intro l₁ l₂
  induction l₁ with
  | nil =>
    simp only [List.nil_append, List.lookup]
    have : (key == k) = false := by simp [Ne.symm hk]
    simp [this]
  | cons hd tl ih =>
    obtain ⟨k₀, w⟩ := hd
    simp only [List.cons_append, List.lookup, List.append_eq, ih]

/-- A successful pass of the `Request` field collector either leaves the
`id` slot unchanged or an `id` key occurs among the fields. -/
theorem Request.collect_ok_id :
    ∀ (fields : List (String × Json)) (acc acc' : RequestAcc),
      Request.collectFields acc fields = .ok acc' →
      acc'.id = acc.id ∨ "id" ∈ fields.map Prod.fst := by
  intro fields
  induction fields with
  | nil =>
    intro acc acc' h
    simp only [Request.collectFields] at h
    cases h
    exact Or.inl rfl
  | cons hd tl ih =>
    intro acc acc' h
    obtain ⟨k, v⟩ := hd
    simp only [Request.collectFields] at h
    simp only [List.map_cons, List.mem_cons]
    split_ifs at h with h1 h2 h3 h4
    · split at h
      · exact absurd h (by simp)
      · split at h
        · rcases ih _ _ h with hid | hmem
          · exact Or.inl hid
          · exact Or.inr (Or.inr hmem)
        · exact absurd h (by simp)
    · exact Or.inr (Or.inl h2.symm)
    · split at h
      · exact absurd h (by simp)
      · split at h
        · rcases ih _ _ h with hid | hmem
          · exact Or.inl hid
          · exact Or.inr (Or.inr hmem)
        · exact absurd h (by simp)
    · split at h
      · exact absurd h (by simp)
      · rcases ih _ _ h with hid | hmem
        · exact Or.inl hid
        · exact Or.inr (Or.inr hmem)
    · rcases ih _ _ h with hid | hmem
      · exact Or.inl hid
      · exact Or.inr (Or.inr hmem)

/-- A successful pass of the collector either leaves the `jsonrpc` slot
unchanged or the fields contain a `jsonrpc` key whose value is the JSON
string that ends up in the slot. -/
theorem Request.collect_ok_jsonrpc :
    ∀ (fields : List (String × Json)) (acc acc' : RequestAcc),
      Request.collectFields acc fields = .ok acc' →
      acc'.jsonrpc = acc.jsonrpc ∨
        ∃ s, acc'.jsonrpc = some s ∧ ("jsonrpc", Json.str s) ∈ fields := by
  intro fields
  induction fields with
  | nil =>
    intro acc acc' h
    simp only [Request.collectFields] at h
    cases h
    exact Or.inl rfl
  | cons hd tl ih =>
    intro acc acc' h
    obtain ⟨k, v⟩ := hd
    simp only [Request.collectFields] at h
    split_ifs at h with h1 h2 h3 h4
    · split at h
      · exact absurd h (by simp)
      · split at h
        · rename_i s hdec
          rcases ih _ _ h with hj | ⟨s', hs', hmem⟩
          · refine Or.inr ⟨s, hj, ?_⟩
            have hv : v = Json.str s := (decodeString_ok_iff v s).mp hdec
            rw [h1, hv]
            exact List.mem_cons_self _ _
          · exact Or.inr ⟨s', hs', List.mem_cons_of_mem _ hmem⟩
        · exact absurd h (by simp)
    · split at h
      · exact absurd h (by simp)
      · split at h
        · rcases ih _ _ h with hj | ⟨s', hs', hmem⟩
          · exact Or.inl hj
          · exact Or.inr ⟨s', hs', List.mem_cons_of_mem _ hmem⟩
        · exact absurd h (by simp)
    · split at h
      · exact absurd h (by simp)
      · split at h
        · rcases ih _ _ h with hj | ⟨s', hs', hmem⟩
          · exact Or.inl hj
          · exact Or.inr ⟨s', hs', List.mem_cons_of_mem _ hmem⟩
        · exact absurd h (by simp)
    · split at h
      · exact absurd h (by simp)
      · rcases ih _ _ h with hj | ⟨s', hs', hmem⟩
        · exact Or.inl hj
        · exact Or.inr ⟨s', hs', List.mem_cons_of_mem _ hmem⟩
    · rcases ih _ _ h with hj | ⟨s', hs', hmem⟩
      · exact Or.inl hj
      · exact Or.inr ⟨s', hs', List.mem_cons_of_mem _ hmem⟩

/-- Inversion of a successful strict `Request` parse. -/
theorem Request.fromJson_ok_inv (v : Json) (req : Request)
    (h : Request.fromJson v = .ok req) :
    ∃ fields acc, v = .obj fields ∧ Request.collectFields {} fields = .ok acc ∧
      acc.jsonrpc = some req.jsonrpc ∧ acc.id = some req.id ∧
      acc.method = some req.method := by
  cases v <;> simp only [Request.fromJson] at h <;> try exact absurd h (by simp)
  rename_i fields
  cases hc : Request.collectFields {} fields with
  | error e => rw [hc] at h; exact absurd h (by simp)
  | ok acc =>
    simp only [hc] at h
    refine ⟨fields, acc, rfl, hc, ?_⟩
    cases hj : acc.jsonrpc with
    | none => simp only [hj] at h; exact absurd h (by simp)
    | some j =>
      cases hi : acc.id with
      | none => simp only [hj, hi] at h; exact absurd h (by simp)
      | some i =>
        cases hm : acc.method with
        | none => simp only [hj, hi, hm] at h; exact absurd h (by simp)
        | some m =>
          simp only [hj, hi, hm, Except.ok.injEq] at h
          subst h
          exact ⟨rfl, rfl, rfl⟩

/-- A document that strict-parses as a `Request` has an `id` key on its
raw form: this is what ties strict parsing to the routing test. -/
theorem Request.fromJson_get_id_isSome (v : Json) (req : Request)
    (h : Request.fromJson v = .ok req) : (v.get "id").isSome := by
  obtain ⟨fields, acc, hv, hc, _, hid, _⟩ := Request.fromJson_ok_inv v req h
  subst hv
  rcases Request.collect_ok_id fields {} acc hc with h0 | h0
  · rw [hid] at h0
    exact absurd h0 (by simp [RequestAcc.id])
  · simp only [Json.get]
    exact lookup_isSome_of_mem_keys _ _ (by simpa using h0)

/-- `Server::handle_request` never answers with `Ok(None)`. -/
theorem handleRequest_ok_isSome (srv : Server) (s : String) (r : Option String)
    (h : srv.handleRequest s = .ok r) : r.isSome := by
  simp only [Server.handleRequest] at h
  split at h
  · exact absurd h (by simp)
  · split at h
    · exact absurd h (by simp)
    · cases h
      rfl

/-- On a document that strict-parses as a `Request`, the dispatch routes to
the request handler and serializes the built `Response`. -/
theorem handleDoc_request (srv : Server) (v : Json) (req : Request)
    (h : Request.fromJson v = .ok req) :
    srv.handleDoc v = .ok (some (Json.render (srv.buildResponse req).toJson)) := by
  have hid := Request.fromJson_get_id_isSome v req h
  simp only [Server.handleDoc, hid, if_true, h]

/-- The full pipeline on a message that parses and strict-parses as a
`Request`. -/
theorem handleMessage_request (srv : Server) (s : String) (v : Json) (req : Request)
    (hp : Json.parse s = .ok v) (hr : Request.fromJson v = .ok req) :
    srv.handleMessage s = .ok (some (Json.render (srv.buildResponse req).toJson)) :=
  (handleMessage_eq_handleDoc srv s v hp).trans (handleDoc_request srv v req hr)

theorem buildResponse_id (srv : Server) (req : Request) :
    (srv.buildResponse req).id = req.id := by
  simp only [Server.buildResponse]
  split <;> rfl

theorem buildResponse_jsonrpc (srv : Server) (req : Request) :
    (srv.buildResponse req).jsonrpc = JSONRPC_VERSION := by
  simp only [Server.buildResponse]
  split <;> rfl

/-- The dispatch reads only the method and the identifier of a `Request`. -/
theorem buildResponse_congr (srv : Server) (r₁ r₂ : Request)
    (hm : r₁.method = r₂.method) (hi : r₁.id = r₂.id) :
    srv.buildResponse r₁ = srv.buildResponse r₂ := by
  simp only [Server.buildResponse, hm, hi]

theorem buildResponse_initializeBranch (srv : Server) (req : Request)
    (h : req.method = "initialize") :
    srv.buildResponse req =
      { jsonrpc := JSONRPC_VERSION, id := req.id,
        result := some (initializeResult srv), error := none } := by
  simp only [Server.buildResponse, h]

theorem buildResponse_ping (srv : Server) (req : Request)
    (h : req.method = "ping") :
    srv.buildResponse req =
      { jsonrpc := JSONRPC_VERSION, id := req.id,
        result := some (Json.obj []), error := none } := by
  simp only [Server.buildResponse, h]

theorem buildResponse_unknown (srv : Server) (req : Request)
    (h1 : req.method ≠ "initialize") (h2 : req.method ≠ "ping") :
    srv.buildResponse req =
      { jsonrpc := JSONRPC_VERSION, id := req.id, result := none,
        error := some { code := -32601, message := "Method not found", data := none } } := by
  simp only [Server.buildResponse]

/-- Key lookups on a serialized `Response` with a result: `result` is
present, `error` is omitted. -/
theorem toJson_get_of_result (r : Response) (v : Json)
    (hr : r.result = some v) (he : r.error = none) :
    r.toJson.get "result" = some v ∧ r.toJson.get "error" = none := by
  simp [Response.toJson, Json.get, hr, he, List.lookup]

/-- Key lookups on a serialized `Response` with an error: `error` is
present, `result` is omitted. -/
theorem toJson_get_of_error (r : Response) (e : ErrorResponse)
    (hr : r.result = none) (he : r.error = some e) :
    r.toJson.get "result" = none ∧ r.toJson.get "error" = some e.toJson := by
  simp [Response.toJson, Json.get, hr, he, List.lookup]

/-- Every text `handle_message` answers was answered through
`handle_request`, so the reply is a serialized built `Response`. -/
theorem handleMessage_ok_some_inv (srv : Server) (s : String) (out : String)
    (h : srv.handleMessage s = .ok (some out)) :
    ∃ req : Request, out = Json.render (srv.buildResponse req).toJson := by
  simp only [Server.handleMessage] at h
  split at h
  · exact absurd h (by simp)
  · split at h
    · simp only [Server.handleRequest] at h
      split at h
      · exact absurd h (by simp)
      · split at h
        · exact absurd h (by simp)
        · rename_i req hreq
          simp only [Except.ok.injEq, Option.some.injEq] at h
          exact ⟨req, h.symm⟩
    · split at h
      · exact absurd h (by simp)
      · exact absurd h (by simp)

/-! ## The claims -/

/-- C2: every `Response` produced by `handle_message` has exactly one of
result/error present, and the absent one is omitted from the serialized
document rather than emitted as `null`. -/
theorem c2_response_exclusivity (srv : Server) (s : String) (out : String)
    (h : srv.handleMessage s = .ok (some out)) :
    ∃ resp : Response, out = Json.render resp.toJson ∧
      ((resp.result.isSome ∧ resp.error = none) ∨
        (resp.result = none ∧ resp.error.isSome)) ∧
      (((resp.toJson.get "result").isSome ∧ resp.toJson.get "error" = none) ∨
        (resp.toJson.get "result" = none ∧ (resp.toJson.get "error").isSome)) := by
  obtain ⟨req, hout⟩ := handleMessage_ok_some_inv srv s out h
  refine ⟨srv.buildResponse req, hout, ?_⟩
  by_cases h1 : req.method = "initialize"
  · rw [buildResponse_initializeBranch srv req h1]
    obtain ⟨g1, g2⟩ := toJson_get_of_result
      { jsonrpc := JSONRPC_VERSION, id := req.id,
        result := some (initializeResult srv), error := none }
      (initializeResult srv) rfl rfl
    exact ⟨Or.inl ⟨rfl, rfl⟩, Or.inl ⟨by simp [g1], g2⟩⟩
  · by_cases h2 : req.method = "ping"
    · rw [buildResponse_ping srv req h2]
      obtain ⟨g1, g2⟩ := toJson_get_of_result
        { jsonrpc := JSONRPC_VERSION, id := req.id,
          result := some (Json.obj []), error := none }
        (Json.obj []) rfl rfl
      exact ⟨Or.inl ⟨rfl, rfl⟩, Or.inl ⟨by simp [g1], g2⟩⟩
    · rw [buildResponse_unknown srv req h1 h2]
      obtain ⟨g1, g2⟩ := toJson_get_of_error
        { jsonrpc := JSONRPC_VERSION, id := req.id, result := none,
          error := some { code := -32601, message := "Method not found", data := none } }
        { code := -32601, message := "Method not found", data := none } rfl rfl
      exact ⟨Or.inr ⟨rfl, rfl⟩, Or.inr ⟨g1, by simp [g2]⟩⟩

/-- C2 witness: the ping reply of the test server, a `Response` with a
result and no error key. -/
theorem c2_response_exclusivity_witness :
    ∃ resp : Response,
      "\x7b\"jsonrpc\":\"2.0\",\"id\":1,\"result\":\x7b\x7d\x7d" = Json.render resp.toJson ∧
      ((resp.result.isSome ∧ resp.error = none) ∨
        (resp.result = none ∧ resp.error.isSome)) ∧
      (((resp.toJson.get "result").isSome ∧ resp.toJson.get "error" = none) ∨
        (resp.toJson.get "result" = none ∧ (resp.toJson.get "error").isSome)) :=
  c2_response_exclusivity exampleServer
    "\x7b\"jsonrpc\":\"2.0\",\"id\":1,\"method\":\"ping\"\x7d"
    "\x7b\"jsonrpc\":\"2.0\",\"id\":1,\"result\":\x7b\x7d\x7d" (by rfl)

/-- C3: for every text that parses as a document, presence of an `id` key
on the raw document routes to request handling (answering `Some` on
success) and absence routes to notification handling (answering `None` on
success). -/
theorem c3_routing (srv : Server) (s : String) (v : Json)
    (hp : Json.parse s = .ok v) :
    ((v.get "id").isSome →
      srv.handleMessage s = srv.handleRequest s ∧
        ∀ r, srv.handleMessage s = .ok r → r.isSome) ∧
    (v.get "id" = none →
      ∀ r, srv.handleMessage s = .ok r → r = none) := by
  constructor
  · intro hid
    have hmsg : srv.handleMessage s = srv.handleRequest s := by
      simp only [Server.handleMessage, hp, hid, if_true]
    exact ⟨hmsg, fun r hr => handleRequest_ok_isSome srv s r (hmsg ▸ hr)⟩
  · intro hid r hr
    simp only [Server.handleMessage, hp, hid, Option.isSome_none,
      Bool.false_eq_true, if_false] at hr
    split at hr
    · exact absurd hr (by simp)
    · simp only [Except.ok.injEq] at hr
      exact hr.symm

/-- C3 witness: a request with a malformed `id` value still routes to
request handling, and a notification routes to `None`. -/
theorem c3_routing_witness :
    (exampleServer.handleMessage "\x7b\"id\":null,\"method\":\"x\"\x7d" =
      exampleServer.handleRequest "\x7b\"id\":null,\"method\":\"x\"\x7d") ∧
    ((some "\x7b\"jsonrpc\":\"2.0\",\"id\":1,\"result\":\x7b\x7d\x7d" : Option String).isSome) ∧
    ((none : Option String) = none) := by
  refine ⟨?_, ?_, ?_⟩
  · exact ((c3_routing exampleServer "\x7b\"id\":null,\"method\":\"x\"\x7d"
      (Json.obj [("id", Json.null), ("method", Json.str "x")]) (by rfl)).1
      (by decide)).1
  · exact (c3_routing exampleServer "\x7b\"jsonrpc\":\"2.0\",\"id\":1,\"method\":\"ping\"\x7d"
      (Json.obj [("jsonrpc", Json.str "2.0"), ("id", Json.num 1),
        ("method", Json.str "ping")]) (by rfl)).1 (by decide)
      |>.2 (some "\x7b\"jsonrpc\":\"2.0\",\"id\":1,\"result\":\x7b\x7d\x7d") (by rfl)
  · exact (c3_routing exampleServer "\x7b\"jsonrpc\":\"2.0\",\"method\":\"ping\"\x7d"
      (Json.obj [("jsonrpc", Json.str "2.0"), ("method", Json.str "ping")]) (by rfl)).2
      (by rfl) none (by rfl)

/-- C4: the `Response` `handle_message` returns to a valid `Request`
carries the request's identifier unchanged, whatever the dispatch branch
and whether the identifier is a string or an integer. -/
theorem c4_id_echo (srv : Server) (s : String) (v : Json) (req : Request)
    (hp : Json.parse s = .ok v) (hr : Request.fromJson v = .ok req) :
    srv.handleMessage s = .ok (some (Json.render (srv.buildResponse req).toJson)) ∧
    (srv.buildResponse req).id = req.id :=
  ⟨handleMessage_request srv s v req hp hr, buildResponse_id srv req⟩

/-- C4 witness: integer identifier `1` echoed through the ping branch. -/
theorem c4_id_echo_witness :
    (exampleServer.handleMessage "\x7b\"jsonrpc\":\"2.0\",\"id\":1,\"method\":\"ping\"\x7d" =
      .ok (some (Json.render (exampleServer.buildResponse
        { jsonrpc := "2.0", id := .number 1, method := "ping", params := none }).toJson))) ∧
    (exampleServer.buildResponse
      { jsonrpc := "2.0", id := .number 1, method := "ping", params := none }).id =
        RequestId.number 1 :=
  c4_id_echo exampleServer "\x7b\"jsonrpc\":\"2.0\",\"id\":1,\"method\":\"ping\"\x7d"
    (Json.obj [("jsonrpc", Json.str "2.0"), ("id", Json.num 1), ("method", Json.str "ping")])
    { jsonrpc := "2.0", id := .number 1, method := "ping", params := none }
    (by rfl) (by rfl)

/-- C5: a valid `Request` with a method other than `initialize` and `ping`
is answered with no result and the error object
`{ code := -32601, message := "Method not found" }` carrying no data. -/
theorem c5_unknown_method (srv : Server) (s : String) (v : Json) (req : Request)
    (hp : Json.parse s = .ok v) (hr : Request.fromJson v = .ok req)
    (h1 : req.method ≠ "initialize") (h2 : req.method ≠ "ping") :
    srv.handleMessage s = .ok (some (Json.render (Response.toJson
      { jsonrpc := JSONRPC_VERSION, id := req.id, result := none,
        error := some { code := -32601, message := "Method not found", data := none } }))) ∧
    (srv.buildResponse req).result = none ∧
    (srv.buildResponse req).error =
      some { code := -32601, message := "Method not found", data := none } := by
  have hb := buildResponse_unknown srv req h1 h2
  refine ⟨?_, by rw [hb], by rw [hb]⟩
  rw [handleMessage_request srv s v req hp hr, hb]

/-- C5 witness: the spec's own example, method `doesNotExist` with id 5. -/
theorem c5_unknown_method_witness :
    (exampleServer.handleMessage "\x7b\"jsonrpc\":\"2.0\",\"id\":5,\"method\":\"doesNotExist\"\x7d" =
      .ok (some (Json.render (Response.toJson
        { jsonrpc := JSONRPC_VERSION, id := .number 5, result := none,
          error := some { code := -32601, message := "Method not found", data := none } })))) ∧
    (exampleServer.buildResponse
      { jsonrpc := "2.0", id := .number 5, method := "doesNotExist", params := none }).result
        = none ∧
    (exampleServer.buildResponse
      { jsonrpc := "2.0", id := .number 5, method := "doesNotExist", params := none }).error
        = some { code := -32601, message := "Method not found", data := none } :=
  c5_unknown_method exampleServer "\x7b\"jsonrpc\":\"2.0\",\"id\":5,\"method\":\"doesNotExist\"\x7d"
    (Json.obj [("jsonrpc", Json.str "2.0"), ("id", Json.num 5),
      ("method", Json.str "doesNotExist")])
    { jsonrpc := "2.0", id := .number 5, method := "doesNotExist", params := none }
    (by rfl) (by rfl) (by decide) (by decide)

/-- C6: a valid `Request` with method `ping` is always answered with the
empty document `{}` as result and no error. -/
theorem c6_ping (srv : Server) (s : String) (v : Json) (req : Request)
    (hp : Json.parse s = .ok v) (hr : Request.fromJson v = .ok req)
    (hm : req.method = "ping") :
    srv.handleMessage s = .ok (some (Json.render (Response.toJson
      { jsonrpc := JSONRPC_VERSION, id := req.id,
        result := some (Json.obj []), error := none }))) ∧
    (srv.buildResponse req).result = some (Json.obj []) ∧
    (srv.buildResponse req).error = none := by
  have hb := buildResponse_ping srv req hm
  refine ⟨?_, by rw [hb], by rw [hb]⟩
  rw [handleMessage_request srv s v req hp hr, hb]

/-- C6 witness: the spec's ping example. -/
theorem c6_ping_witness :
    (exampleServer.handleMessage "\x7b\"jsonrpc\":\"2.0\",\"id\":1,\"method\":\"ping\"\x7d" =
      .ok (some (Json.render (Response.toJson
        { jsonrpc := JSONRPC_VERSION, id := .number 1,
          result := some (Json.obj []), error := none })))) ∧
    (exampleServer.buildResponse
      { jsonrpc := "2.0", id := .number 1, method := "ping", params := none }).result
        = some (Json.obj []) ∧
    (exampleServer.buildResponse
      { jsonrpc := "2.0", id := .number 1, method := "ping", params := none }).error
        = none :=
  c6_ping exampleServer "\x7b\"jsonrpc\":\"2.0\",\"id\":1,\"method\":\"ping\"\x7d"
    (Json.obj [("jsonrpc", Json.str "2.0"), ("id", Json.num 1), ("method", Json.str "ping")])
    { jsonrpc := "2.0", id := .number 1, method := "ping", params := none }
    (by rfl) (by rfl) rfl

/-- C7: every valid `Notification` — any method name — is handled without
output and without failure: `handle_message` answers `Ok(None)`. -/
theorem c7_notifications_silent (srv : Server) (s : String) (v : Json) (n : Notification)
    (hp : Json.parse s = .ok v) (hid : v.get "id" = none)
    (hn : Notification.fromJson v = .ok n) :
    srv.handleMessage s = .ok none := by
  rw [handleMessage_eq_handleDoc srv s v hp]
  simp only [Server.handleDoc, hid, Option.isSome_none, Bool.false_eq_true,
    if_false, hn]

/-- C7 witness: an unrecognized notification method is silently accepted. -/
theorem c7_notifications_silent_witness :
    exampleServer.handleMessage "\x7b\"jsonrpc\":\"2.0\",\"method\":\"no/suchMethod\"\x7d" =
      .ok none :=
  c7_notifications_silent exampleServer
    "\x7b\"jsonrpc\":\"2.0\",\"method\":\"no/suchMethod\"\x7d"
    (Json.obj [("jsonrpc", Json.str "2.0"), ("method", Json.str "no/suchMethod")])
    { jsonrpc := "2.0", method := "no/suchMethod", params := none }
    (by rfl) (by rfl) (by rfl)

/-- C8: on text that does not parse as a document, `handle_message`
propagates the parse error itself: no reply and no synthesized error
`Response`. -/
theorem c8_parse_error_propagates (srv : Server) (s : String) (e : String)
    (h : Json.parse s = .error e) : srv.handleMessage s = .error e := by
  simp only [Server.handleMessage, h]

/-- C8 witness: unparseable text fails with the parse error. -/
theorem c8_parse_error_propagates_witness :
    exampleServer.handleMessage "this is not json" = .error "invalid literal" :=
  c8_parse_error_propagates exampleServer "this is not json" "invalid literal" (by rfl)

/-- A document that strict-parses as a `Request` carries a `jsonrpc` key
whose value is the JSON string that became the request's `jsonrpc`. -/
theorem Request.fromJson_jsonrpc_mem (fields : List (String × Json)) (r : Request)
    (hr : Request.fromJson (.obj fields) = .ok r) :
    ("jsonrpc", Json.str r.jsonrpc) ∈ fields := by
  obtain ⟨fields', acc, hv, hc, hj, _, _⟩ := Request.fromJson_ok_inv _ r hr
  injection hv with hf
  subst hf
  rcases Request.collect_ok_jsonrpc fields {} acc hc with h0 | ⟨s, hs, hmem⟩
  · rw [hj] at h0
    exact absurd h0 (by simp)
  · have : some r.jsonrpc = some s := hj.symm.trans hs
    injection this with hss
    rw [hss]
    exact hmem

/-- A successful pass of the `Notification` collector either leaves the
`jsonrpc` slot unchanged or the fields contain a `jsonrpc` key whose value
is the JSON string that ends up in the slot. -/
theorem notifCollect_ok_jsonrpc :
    ∀ (fields : List (String × Json)) (acc acc' : NotificationAcc),
      Notification.collectFields acc fields = .ok acc' →
      acc'.jsonrpc = acc.jsonrpc ∨
        ∃ s, acc'.jsonrpc = some s ∧ ("jsonrpc", Json.str s) ∈ fields := by
  intro fields
  induction fields with
  | nil =>
    intro acc acc' h
    simp only [Notification.collectFields] at h
    cases h
    exact Or.inl rfl
  | cons hd tl ih =>
    intro acc acc' h
    obtain ⟨k, v⟩ := hd
    simp only [Notification.collectFields] at h
    split_ifs at h with h1 h3 h4
    · split at h
      · exact absurd h (by simp)
      · split at h
        · rename_i s hdec
          rcases ih _ _ h with hj | ⟨s', hs', hmem⟩
          · refine Or.inr ⟨s, hj, ?_⟩
            have hv : v = Json.str s := (decodeString_ok_iff v s).mp hdec
            rw [h1, hv]
            exact List.mem_cons_self _ _
          · exact Or.inr ⟨s', hs', List.mem_cons_of_mem _ hmem⟩
        · exact absurd h (by simp)
    · split at h
      · exact absurd h (by simp)
      · split at h
        · rcases ih _ _ h with hj | ⟨s', hs', hmem⟩
          · exact Or.inl hj
          · exact Or.inr ⟨s', hs', List.mem_cons_of_mem _ hmem⟩
        · exact absurd h (by simp)
    · split at h
      · exact absurd h (by simp)
      · rcases ih _ _ h with hj | ⟨s', hs', hmem⟩
        · exact Or.inl hj
        · exact Or.inr ⟨s', hs', List.mem_cons_of_mem _ hmem⟩
    · rcases ih _ _ h with hj | ⟨s', hs', hmem⟩
      · exact Or.inl hj
      · exact Or.inr ⟨s', hs', List.mem_cons_of_mem _ hmem⟩

/-- Inversion of a successful strict `Notification` parse. -/
theorem notifFromJson_ok_inv (v : Json) (n : Notification)
    (h : Notification.fromJson v = .ok n) :
    ∃ fields acc, v = .obj fields ∧ Notification.collectFields {} fields = .ok acc ∧
      acc.jsonrpc = some n.jsonrpc ∧ acc.method = some n.method := by
  cases v <;> simp only [Notification.fromJson] at h <;> try exact absurd h (by simp)
  rename_i fields
  cases hc : Notification.collectFields {} fields with
  | error e => rw [hc] at h; exact absurd h (by simp)
  | ok acc =>
    simp only [hc] at h
    refine ⟨fields, acc, rfl, hc, ?_⟩
    cases hj : acc.jsonrpc with
    | none => simp only [hj] at h; exact absurd h (by simp)
    | some j =>
      cases hm : acc.method with
      | none => simp only [hj, hm] at h; exact absurd h (by simp)
      | some m =>
        simp only [hj, hm, Except.ok.injEq] at h
        subst h
        exact ⟨rfl, rfl⟩

/-- A document that strict-parses as a `Notification` carries a `jsonrpc`
key whose value is the JSON string that became the notification's
`jsonrpc`. -/
theorem notifFromJson_jsonrpc_mem (fields : List (String × Json))
    (n : Notification) (hn : Notification.fromJson (.obj fields) = .ok n) :
    ("jsonrpc", Json.str n.jsonrpc) ∈ fields := by
  obtain ⟨fields', acc, hv, hc, hj, _⟩ := notifFromJson_ok_inv _ n hn
  injection hv with hf
  subst hf
  rcases notifCollect_ok_jsonrpc fields {} acc hc with h0 | ⟨s, hs, hmem⟩
  · rw [hj] at h0
    exact absurd h0 (by simp)
  · have hss : some n.jsonrpc = some s := hj.symm.trans hs
    injection hss with hss'
    rw [hss']
    exact hmem

/-- The notification handler succeeds on every valid `Notification`,
whatever its `jsonrpc` value: the handler never inspects it. -/
theorem handleNotification_ok (srv : Server) (s : String) (v : Json) (n : Notification)
    (hp : Json.parse s = .ok v) (hn : Notification.fromJson v = .ok n) :
    srv.handleNotification s = .ok () := by
  simp only [Server.handleNotification, hp, hn]
  split <;> rfl

/-- C9: the incoming `jsonrpc` value is never validated, on requests and
notifications alike: the shared field decoder accepts every string, strict
parsing of either shape succeeds only when the field is present as a
string, request dispatch is identical and notification handling succeeds
whatever the value, and every produced `Response` carries the fixed
literal `"2.0"`. -/
theorem c9_jsonrpc_not_validated (srv : Server) (req : Request) (j₁ j₂ : String) :
    srv.buildResponse { req with jsonrpc := j₁ } =
      srv.buildResponse { req with jsonrpc := j₂ } ∧
    (srv.buildResponse req).jsonrpc = JSONRPC_VERSION ∧
    (∀ j, decodeString (.str j) = .ok j) ∧
    (∀ fields r, Request.fromJson (.obj fields) = .ok r →
      ("jsonrpc", Json.str r.jsonrpc) ∈ fields) ∧
    (∀ fields, "jsonrpc" ∉ fields.map Prod.fst →
      ∀ r, Request.fromJson (.obj fields) ≠ .ok r) ∧
    (∀ s v n, Json.parse s = .ok v → Notification.fromJson v = .ok n →
      srv.handleNotification s = .ok ()) ∧
    (∀ fields n, Notification.fromJson (.obj fields) = .ok n →
      ("jsonrpc", Json.str n.jsonrpc) ∈ fields) ∧
    (∀ fields, "jsonrpc" ∉ fields.map Prod.fst →
      ∀ n, Notification.fromJson (.obj fields) ≠ .ok n) := by
  refine ⟨buildResponse_congr srv _ _ rfl rfl, buildResponse_jsonrpc srv req,
    fun j => rfl, Request.fromJson_jsonrpc_mem, ?_, handleNotification_ok srv,
    notifFromJson_jsonrpc_mem, ?_⟩
  · intro fields hne r hr
    exact hne (List.mem_map_of_mem Prod.fst (Request.fromJson_jsonrpc_mem fields r hr))
  · intro fields hne n hn
    exact hne (List.mem_map_of_mem Prod.fst (notifFromJson_jsonrpc_mem fields n hn))

/-- C9 witness: `"1.0"` and `""` as `jsonrpc` dispatch identically on a
request, the reply carries `"2.0"`, a notification with `jsonrpc` `"1.0"`
is handled without failure, each parsed shape's `jsonrpc` came from a
string field, and documents without `jsonrpc` never parse strictly. -/
theorem c9_jsonrpc_not_validated_witness :
    (exampleServer.buildResponse
        { jsonrpc := "1.0", id := .number 1, method := "ping", params := none } =
      exampleServer.buildResponse
        { jsonrpc := "", id := .number 1, method := "ping", params := none }) ∧
    (exampleServer.buildResponse
        { jsonrpc := "1.0", id := .number 1, method := "ping", params := none }).jsonrpc =
      JSONRPC_VERSION ∧
    decodeString (.str "1.0") = .ok "1.0" ∧
    ("jsonrpc", Json.str "2.0") ∈
      [("jsonrpc", Json.str "2.0"), ("id", Json.num 1), ("method", Json.str "ping")] ∧
    Request.fromJson (Json.obj [("id", Json.num 1), ("method", Json.str "ping")]) ≠
      .ok { jsonrpc := "2.0", id := .number 1, method := "ping", params := none } ∧
    exampleServer.handleNotification "\x7b\"jsonrpc\":\"1.0\",\"method\":\"ping\"\x7d" =
      .ok () ∧
    ("jsonrpc", Json.str "1.0") ∈
      [("jsonrpc", Json.str "1.0"), ("method", Json.str "ping")] ∧
    Notification.fromJson (Json.obj [("method", Json.str "ping")]) ≠
      .ok { jsonrpc := "2.0", method := "ping", params := none } := by
  have h := c9_jsonrpc_not_validated exampleServer
    { jsonrpc := "1.0", id := .number 1, method := "ping", params := none } "1.0" ""
  refine ⟨h.1, h.2.1, h.2.2.1 "1.0", ?_, ?_, ?_, ?_, ?_⟩
  · exact h.2.2.2.1
      [("jsonrpc", Json.str "2.0"), ("id", Json.num 1), ("method", Json.str "ping")]
      { jsonrpc := "2.0", id := .number 1, method := "ping", params := none } (by rfl)
  · exact h.2.2.2.2.1 [("id", Json.num 1), ("method", Json.str "ping")] (by decide) _
  · exact h.2.2.2.2.2.1 "\x7b\"jsonrpc\":\"1.0\",\"method\":\"ping\"\x7d"
      (Json.obj [("jsonrpc", Json.str "1.0"), ("method", Json.str "ping")])
      { jsonrpc := "1.0", method := "ping", params := none } (by rfl) (by rfl)
  · exact h.2.2.2.2.2.2.1
      [("jsonrpc", Json.str "1.0"), ("method", Json.str "ping")]
      { jsonrpc := "1.0", method := "ping", params := none } (by rfl)
  · exact h.2.2.2.2.2.2.2 [("method", Json.str "ping")] (by decide) _

/-- Prepending the same head to two field lists on which the collector
agrees keeps it agreeing. -/
theorem requestCollect_congr_tail (hd : String × Json)
    (rest₁ rest₂ : List (String × Json))
    (h : ∀ acc, Request.collectFields acc rest₁ = Request.collectFields acc rest₂)
    (acc : RequestAcc) :
    Request.collectFields acc (hd :: rest₁) = Request.collectFields acc (hd :: rest₂) := by
  obtain ⟨k, v⟩ := hd
  simp only [Request.collectFields, h]

/-- The `Request` collector skips an inserted field with an unknown key. -/
theorem requestCollect_skip_extra (k : String) (v : Json)
    (h1 : k ≠ "jsonrpc") (h2 : k ≠ "id") (h3 : k ≠ "method") (h4 : k ≠ "params") :
    ∀ (pre post : List (String × Json)) (acc : RequestAcc),
      Request.collectFields acc (pre ++ (k, v) :: post) =
        Request.collectFields acc (pre ++ post) := by
  intro pre
  induction pre with
  | nil =>
    intro post acc
    simp only [List.nil_append, Request.collectFields, if_neg h1, if_neg h2,
      if_neg h3, if_neg h4]
  | cons hd tl ih =>
    intro post acc
    simp only [List.cons_append]
    exact requestCollect_congr_tail hd _ _ (fun acc => ih post acc) acc

theorem notifCollect_congr_tail (hd : String × Json)
    (rest₁ rest₂ : List (String × Json))
    (h : ∀ acc, Notification.collectFields acc rest₁ = Notification.collectFields acc rest₂)
    (acc : NotificationAcc) :
    Notification.collectFields acc (hd :: rest₁) =
      Notification.collectFields acc (hd :: rest₂) := by
  obtain ⟨k, v⟩ := hd
  simp only [Notification.collectFields, h]

/-- The `Notification` collector skips an inserted field with an unknown
key. -/
theorem notifCollect_skip_extra (k : String) (v : Json)
    (h1 : k ≠ "jsonrpc") (h3 : k ≠ "method") (h4 : k ≠ "params") :
    ∀ (pre post : List (String × Json)) (acc : NotificationAcc),
      Notification.collectFields acc (pre ++ (k, v) :: post) =
        Notification.collectFields acc (pre ++ post) := by
  intro pre
  induction pre with
  | nil =>
    intro post acc
    simp only [List.nil_append, Notification.collectFields, if_neg h1, if_neg h3, if_neg h4]
  | cons hd tl ih =>
    intro post acc
    simp only [List.cons_append]
    exact notifCollect_congr_tail hd _ _ (fun acc => ih post acc) acc

/-- C10 counterexample: the claim fails as stated.  The document
`{"jsonrpc":"2.0","method":"ping"}` strict-parses as a `Notification`, and
so does the same document with the extra field `"id":1` added (`id` is
unrecognized by the `Notification` struct and ignored by strict parsing) —
yet `handle_message` answers `None` for the first and a ping reply for the
second, because the raw-document routing sees the added `id`. -/
theorem c10_extra_fields_counterexample :
    (Notification.fromJson
        (Json.obj [("jsonrpc", Json.str "2.0"), ("method", Json.str "ping")]) =
      .ok { jsonrpc := "2.0", method := "ping", params := none }) ∧
    (Notification.fromJson
        (Json.obj [("jsonrpc", Json.str "2.0"), ("method", Json.str "ping"),
          ("id", Json.num 1)]) =
      .ok { jsonrpc := "2.0", method := "ping", params := none }) ∧
    exampleServer.handleMessage "\x7b\"jsonrpc\":\"2.0\",\"method\":\"ping\"\x7d" = .ok none ∧
    exampleServer.handleMessage "\x7b\"jsonrpc\":\"2.0\",\"method\":\"ping\",\"id\":1\x7d" =
      .ok (some "\x7b\"jsonrpc\":\"2.0\",\"id\":1,\"result\":\x7b\x7d\x7d") ∧
    exampleServer.handleMessage "\x7b\"jsonrpc\":\"2.0\",\"method\":\"ping\"\x7d" ≠
      exampleServer.handleMessage "\x7b\"jsonrpc\":\"2.0\",\"method\":\"ping\",\"id\":1\x7d" := by
  refine ⟨rfl, rfl, rfl, rfl, ?_⟩
  intro hc
  rw [show exampleServer.handleMessage "\x7b\"jsonrpc\":\"2.0\",\"method\":\"ping\"\x7d" =
        .ok none from rfl,
      show exampleServer.handleMessage "\x7b\"jsonrpc\":\"2.0\",\"method\":\"ping\",\"id\":1\x7d" =
        .ok (some "\x7b\"jsonrpc\":\"2.0\",\"id\":1,\"result\":\x7b\x7d\x7d") from rfl] at hc
  exact absurd hc (by simp)

/-- C10 as amended: inserting an extra field whose key is none of the
recognized ones — and in particular not `id` — anywhere into a document
changes neither strict parsing as `Request` or `Notification` nor the
output of the dispatch, at the document level and at the message level. -/
theorem c10_extra_fields_ignored (srv : Server) (k : String) (v : Json)
    (pre post : List (String × Json))
    (h1 : k ≠ "jsonrpc") (h2 : k ≠ "id") (h3 : k ≠ "method") (h4 : k ≠ "params") :
    Request.fromJson (Json.obj (pre ++ (k, v) :: post)) =
      Request.fromJson (Json.obj (pre ++ post)) ∧
    Notification.fromJson (Json.obj (pre ++ (k, v) :: post)) =
      Notification.fromJson (Json.obj (pre ++ post)) ∧
    srv.handleDoc (Json.obj (pre ++ (k, v) :: post)) =
      srv.handleDoc (Json.obj (pre ++ post)) ∧
    (∀ s t, Json.parse s = .ok (Json.obj (pre ++ (k, v) :: post)) →
      Json.parse t = .ok (Json.obj (pre ++ post)) →
      srv.handleMessage s = srv.handleMessage t) := by
  have hreq : Request.fromJson (Json.obj (pre ++ (k, v) :: post)) =
      Request.fromJson (Json.obj (pre ++ post)) := by
    simp only [Request.fromJson, requestCollect_skip_extra k v h1 h2 h3 h4]
  have hnot : Notification.fromJson (Json.obj (pre ++ (k, v) :: post)) =
      Notification.fromJson (Json.obj (pre ++ post)) := by
    simp only [Notification.fromJson, notifCollect_skip_extra k v h1 h3 h4]
  have hget : Json.get (Json.obj (pre ++ (k, v) :: post)) "id" =
      Json.get (Json.obj (pre ++ post)) "id" := by
    simp only [Json.get, List.reverse_append, List.reverse_cons, List.append_assoc,
      List.singleton_append]
    exact lookup_middle_ne k "id" v h2 _ _
  have hdoc : srv.handleDoc (Json.obj (pre ++ (k, v) :: post)) =
      srv.handleDoc (Json.obj (pre ++ post)) := by
    simp only [Server.handleDoc, hget, hreq, hnot]
  refine ⟨hreq, hnot, hdoc, ?_⟩
  intro s t hs ht
  rw [handleMessage_eq_handleDoc srv s _ hs, handleMessage_eq_handleDoc srv t _ ht, hdoc]

/-- C10 amended witness: inserting `"extra":true` into a ping request
changes nothing, down to the exchanged texts. -/
theorem c10_extra_fields_ignored_witness :
    (Request.fromJson (Json.obj ([("jsonrpc", Json.str "2.0"), ("id", Json.num 1)] ++
        ("extra", Json.bool true) :: [("method", Json.str "ping")])) =
      Request.fromJson (Json.obj ([("jsonrpc", Json.str "2.0"), ("id", Json.num 1)] ++
        [("method", Json.str "ping")]))) ∧
    exampleServer.handleMessage
        "\x7b\"jsonrpc\":\"2.0\",\"id\":1,\"extra\":true,\"method\":\"ping\"\x7d" =
      exampleServer.handleMessage "\x7b\"jsonrpc\":\"2.0\",\"id\":1,\"method\":\"ping\"\x7d" := by
  have h := c10_extra_fields_ignored exampleServer "extra" (Json.bool true)
    [("jsonrpc", Json.str "2.0"), ("id", Json.num 1)] [("method", Json.str "ping")]
    (by decide) (by decide) (by decide) (by decide)
  exact ⟨h.1, h.2.2.2 _ _ (by rfl) (by rfl)⟩

/-- C1: the `initialize` reply has no error, echoes `protocolVersion` and
`serverInfo` as claimed, but the capability sub-flags serialize under the
Rust field names `list_changed` (no serde rename to camelCase), not the
`listChanged` the claim and the MCP wire format state: the produced result
document is not the spec's document. -/
theorem c1_initialize_emits_snake_case_keys :
    (exampleServer.handleMessage
        "\x7b\"jsonrpc\":\"2.0\",\"id\":1,\"method\":\"initialize\",\"params\":\x7b\x7d\x7d" =
      .ok (some "\x7b\"jsonrpc\":\"2.0\",\"id\":1,\"result\":\x7b\"capabilities\":\x7b\"logging\":\x7b\x7d,\"prompts\":\x7b\"list_changed\":false\x7d,\"resources\":\x7b\"list_changed\":false,\"subscribe\":false\x7d,\"tools\":\x7b\"list_changed\":false\x7d\x7d,\"protocolVersion\":\"2024-11-05\",\"serverInfo\":\x7b\"name\":\"test-server\",\"version\":\"1.0.0\"\x7d\x7d\x7d")) ∧
    (exampleServer.buildResponse
      { jsonrpc := "2.0", id := .number 1, method := "initialize",
        params := some (Json.obj []) }).error = none ∧
    (exampleServer.buildResponse
      { jsonrpc := "2.0", id := .number 1, method := "initialize",
        params := some (Json.obj []) }).result = some (initializeResult exampleServer) ∧
    (initializeResult exampleServer).get "protocolVersion" =
      some (Json.str "2024-11-05") ∧
    (initializeResult exampleServer).get "serverInfo" =
      some (Json.obj [("name", Json.str "test-server"), ("version", Json.str "1.0.0")]) ∧
    ((initializeResult exampleServer).get "capabilities").bind (fun c => c.get "prompts") =
      some (Json.obj [("list_changed", Json.bool false)]) ∧
    (((initializeResult exampleServer).get "capabilities").bind
      (fun c => c.get "prompts")).bind (fun p => p.get "listChanged") = none ∧
    ((specInitializeResult "test-server" "1.0.0").get "capabilities").bind
      (fun c => c.get "prompts") = some (Json.obj [("listChanged", Json.bool false)]) ∧
    initializeResult exampleServer ≠ specInitializeResult "test-server" "1.0.0" := by
  set_option maxRecDepth 16384 in
  refine ⟨rfl, rfl, rfl, rfl, rfl, rfl, rfl, rfl, ?_⟩
  intro hcontra
  have ha : ((initializeResult exampleServer).get "capabilities").bind
      (fun c => c.get "prompts") = some (Json.obj [("list_changed", Json.bool false)]) := rfl
  rw [hcontra] at ha
  have hb : ((specInitializeResult "test-server" "1.0.0").get "capabilities").bind
      (fun c => c.get "prompts") = some (Json.obj [("listChanged", Json.bool false)]) := rfl
  rw [hb] at ha
  simp at ha

end McpRs
